import Mathlib

/-!
Shallow embedding of the `DataMCPlot` class of HepPlotUtilities
(src/src/DataMCPlot.cpp and its header).

Conventions of the embedding:
* `double` is modelled by `ℚ` (exact arithmetic; where IEEE-754 specifics
  matter the divergence is recorded in comments on the theorems).
* `std::size_t` arithmetic in the title-splitting code is modelled on `Nat`
  with explicit reduction modulo `2 ^ 64`.
* A ROOT `TH1` is modelled by `Hist`: per-cell contents and squared
  uncertainties (`fSumw2`) over cells `0 .. nbins + 1`, where cell `0` is the
  underflow and the last cell the overflow accumulator, plus the nominal bin
  widths.  `TH1::Add`, `TH1::Divide`, `TH1::Scale` and
  `TH1::Integral(0, -1, opt)` are embedded following the ROOT sources: `Add`
  and `Divide` first check binning consistency and leave the histogram
  unchanged on mismatch; `Divide` writes `0` into any cell whose denominator
  is zero; `Integral(0, -1, opt)` sums all cells including under/overflow,
  weighting by `TAxis::GetBinWidth` (which clamps the cell index into
  `[1, nbins]`) when the option is `"width"`.
* The throwing C++ methods are embedded with an `Except` codomain; a method
  whose body contains no `throw` is embedded as always returning `Except.ok`.
* `ReadFile` is split into `readDir` (the body after the `TDirectory` has
  been resolved; a `TDirectory` is a list of keys, each carrying a name, the
  stored object's class and the stored object) and the wrapper `readFile`
  performing the `TFile::Open`/`IsZombie`/`GetDirectory` checks.
-/

namespace HepPlot

/-- A one-dimensional ROOT histogram: name, title, nominal bin widths
(length `nbins`), per-cell contents and per-cell squared uncertainties
(`fSumw2`), both of length `nbins + 2` with cell `0` the underflow and the
last cell the overflow accumulator. -/
structure Hist where
  name : String
  htitle : String
  widths : List ℚ
  contents : List ℚ
  sumw2 : List ℚ
deriving DecidableEq

/-- Errors thrown by `ReadFile` (all reported as `std::runtime_error` in the
C++, distinguished here by their message). -/
inductive LoadError where
  | sourceUnavailable
  | groupNotFound
  | missingDataHistogram
  | noSimulationFound
deriving DecidableEq

/-- Errors thrown by the post-load methods (`std::logic_error` in the C++)
together with the spec's normalization error, which the claims mention. -/
inductive PlotError where
  | degenerateNormalization
  | figureNotRendered
deriving DecidableEq

/-- A text annotation drawn on the canvas (a `TLatex` in NDC coordinates). -/
structure LatexLabel where
  xNDC : ℚ
  yNDC : ℚ
  text : String
  textSize : ℚ
  align : Nat
deriving DecidableEq

/-- The `TCanvas` created by `Draw`, with the annotations later attached to
it by `AddCMSLabel` / `AddEnergyLabel`. -/
structure Canvas where
  widthPx : ℚ
  heightPx : ℚ
  labels : List LatexLabel
deriving DecidableEq

/-- The state of a `DataMCPlot` object: the stored title, the data
histogram, the list of MC histograms in load order, the residuals toggle and
range, and the canvas (absent until `Draw` has been called). -/
structure Figure where
  title : String
  dataHist : Hist
  mcHists : List Hist
  plotResiduals : Bool
  residualsRange : ℚ × ℚ
  canvas : Option Canvas
deriving DecidableEq

/-! ## The std::string machinery used by `Draw` for the residuals x title -/

/-- The value `std::string::npos`, i.e. `SIZE_MAX`. -/
def npos : Nat := 2 ^ 64 - 1

/-- Index of the first occurrence of `c` in `s` (from the head), if any. -/
def strFindAux : List Char → Char → Option Nat
  | [], _ => none
  | x :: xs, c => if x = c then some 0 else (strFindAux xs c).map (· + 1)

/-- The embedding of `std::string::find_first_of(c, pos)` for a single
character: the least index `≥ pos` holding `c`, or `npos`. -/
def findFirstOf (s : List Char) (c : Char) (pos : Nat) : Nat :=
  match strFindAux (s.drop pos) c with
  | none => npos
  | some i => pos + i

/-- The embedding of `std::string::substr(pos, len)`.  The C++ function
throws `std::out_of_range` for `pos > size()`; at its single use below the
position is always `≤ size()`, so the clamping model is faithful there. -/
def substr (s : List Char) (pos len : Nat) : List Char :=
  (s.drop pos).take len

/-- The x-axis-title extraction performed by `DataMCPlot::Draw` for the
residuals pad (DataMCPlot.cpp:227-230):

`pos1 = title.find_first_of(';'); pos2 = title.find_first_of(';', pos1 + 1);`
`xAxisTitle = title.substr(pos1 + 1, pos2 - pos1 - 1);`

with all position arithmetic performed in `std::size_t`, i.e. modulo
`2 ^ 64`. -/
def extractXAxisTitle (title : List Char) : List Char :=
  let pos1 := findFirstOf title ';' 0
  let pos2 := findFirstOf title ';' ((pos1 + 1) % 2 ^ 64)
  substr title ((pos1 + 1) % 2 ^ 64) ((pos2 + 2 ^ 64 - (pos1 + 1)) % 2 ^ 64)

/-- The second semicolon-separated field of a figure title as the spec
describes it: the substring strictly between the first `;` and the next `;`
(running to the end of the string when there is no second `;`), and empty
when the title contains no `;` at all.  This definition follows the spec's
words and is compared against `extractXAxisTitle`, which follows the
source. -/
def specXAxisField (title : List Char) : List Char :=
  ((title.dropWhile (fun a => a != ';')).drop 1).takeWhile (fun a => a != ';')

/-! ## TH1 operations -/

/-- The embedding of `TH1::Clone(newName)` for a histogram: a deep copy
renamed to `nm`. -/
def cloneH (h : Hist) (nm : String) : Hist :=
  { h with name := nm }

/-- The consistency check `TH1::CheckConsistency` performed by `TH1::Add`
and `TH1::Divide`: same number of cells and same binning. -/
def sameBinning (a b : Hist) : Prop :=
  a.contents.length = b.contents.length ∧ a.widths = b.widths

instance (a b : Hist) : Decidable (sameBinning a b) := by
  unfold sameBinning; infer_instance

/-- The embedding of `TH1::Add(h2, c)`: cell-wise `this += c * h2`, with
`fSumw2 += c ^ 2 * h2.fSumw2`.  On inconsistent binning ROOT reports an
error to stderr and leaves the histogram unchanged. -/
def histAdd (a b : Hist) (c : ℚ) : Hist :=
  if sameBinning a b then
    { a with
      contents := (List.range a.contents.length).map
        (fun i => a.contents.getD i 0 + c * b.contents.getD i 0),
      sumw2 := (List.range a.sumw2.length).map
        (fun i => a.sumw2.getD i 0 + c ^ 2 * b.sumw2.getD i 0) }
  else a

/-- The embedding of `TH1::Divide(h2)`: cell-wise `this /= h2`, where a cell
whose denominator is zero is set to `0` (both content and `fSumw2`) — ROOT
performs no IEEE division there and throws nothing.  On inconsistent binning
the histogram is left unchanged. -/
def histDivide (a b : Hist) : Hist :=
  if sameBinning a b then
    { a with
      contents := (List.range a.contents.length).map (fun i =>
        if b.contents.getD i 0 = 0 then 0
        else a.contents.getD i 0 / b.contents.getD i 0),
      sumw2 := (List.range a.sumw2.length).map (fun i =>
        if b.contents.getD i 0 = 0 then 0
        else (a.sumw2.getD i 0 * (b.contents.getD i 0) ^ 2 +
              b.sumw2.getD i 0 * (a.contents.getD i 0) ^ 2) /
             ((b.contents.getD i 0) ^ 2 * (b.contents.getD i 0) ^ 2)) }
  else a

/-- The embedding of `TH1::Scale(c)`: contents are multiplied by `c` and
`fSumw2` by `c ^ 2`. -/
def scaleHist (c : ℚ) (h : Hist) : Hist :=
  { h with
    contents := h.contents.map (fun x => c * x),
    sumw2 := h.sumw2.map (fun x => c ^ 2 * x) }

/-- The embedding of `TAxis::GetBinWidth` for cell `i`: the index is clamped
into `[1, nbins]`, so the underflow cell uses the width of the first bin and
the overflow cell the width of the last one. -/
def cellWeight (h : Hist) (i : Nat) : ℚ :=
  h.widths.getD (min (max i 1) h.widths.length - 1) 0

/-- The embedding of `TH1::Integral(0, -1, opt)`: the sum of all cells
including the under/overflow accumulators, each weighted by its bin width
when `isDensity` (option `"width"`) is set. -/
def integral (h : Hist) (isDensity : Bool) : ℚ :=
  if isDensity then
    (List.zipWith (fun x w => x * w) h.contents
      ((List.range h.contents.length).map (cellWeight h))).sum
  else h.contents.sum

/-! ## The loader (`DataMCPlot::ReadFile`) -/

/-- An object stored in a `TDirectory`, as far as `ReadFile` inspects it:
a `TObjString` (the title), an object deriving from `TH1` together with its
concrete class name (`"TH1D"`, `"TH2F"`, ...), or anything else. -/
inductive StoredObj where
  | objString (s : String)
  | histObj (cls : String) (h : Hist)
  | otherObj (cls : String)
deriving DecidableEq

/-- A key of a `TDirectory`: the key name and the stored object.  The
`TKey::GetClassName()` consulted by the MC loop is the class recorded in the
stored object, as it is in a ROOT file. -/
structure DirEntry where
  name : String
  obj : StoredObj
deriving DecidableEq

/-- The embedding of `TDirectory::Get(name)` followed by
`dynamic_cast<TH1 *>`: succeeds exactly on objects deriving from `TH1`. -/
def castTH1 : StoredObj → Option Hist
  | .histObj _ h => some h
  | _ => none

/-- The embedding of `dynamic_cast<TObjString *>`. -/
def castObjString : StoredObj → Option String
  | .objString s => some s
  | _ => none

/-- The embedding of `TDirectory::Get(name)`: the object stored under the
first key with that name (key names are assumed unique in the directory, as
`ReadFile` itself assumes when it re-reads each enumerated key by name). -/
def dirGet (entries : List DirEntry) (nm : String) : Option StoredObj :=
  (entries.find? (fun e => e.name == nm)).map (fun e => e.obj)

/-- The concrete one-dimensional histogram classes accepted by the MC loop
of `ReadFile` (DataMCPlot.cpp:412-413). -/
def oneDimHistClasses : List String :=
  ["TH1D", "TH1F", "TH1I", "TH1S", "TH1C"]

/-- The key names skipped by the MC loop (DataMCPlot.cpp:420). -/
def reservedNames : List String :=
  ["data", "syst_up", "syst_down"]

/-- One iteration of the MC loop of `ReadFile`: a key contributes an MC
histogram iff its class is a one-dimensional histogram class and its name is
not reserved. -/
def mcKeyFilter (e : DirEntry) : Option Hist :=
  match e.obj with
  | .histObj cls h =>
      if cls ∈ oneDimHistClasses ∧ e.name ∉ reservedNames then some h else none
  | _ => none

/-- The body of `DataMCPlot::ReadFile` after the `TDirectory` has been
resolved, together with the member initializers of the constructor
(`plotResiduals(true), residualsRange(-0.25, 0.28)`): read the optional
title, fail without the `data` histogram, collect the MC histograms, and
fail when none remain. -/
def readDir (entries : List DirEntry) : Except LoadError Figure :=
  let title := ((dirGet entries ("title")).bind castObjString).getD ("")
  match (dirGet entries ("data")).bind castTH1 with
  | none => .error .missingDataHistogram
  | some dataHist =>
      let mcHists := entries.filterMap mcKeyFilter
      if mcHists = [] then .error .noSimulationFound
      else .ok { title := title, dataHist := dataHist, mcHists := mcHists,
                 plotResiduals := true,
                 residualsRange := (-(25 / 100 : ℚ), 28 / 100),
                 canvas := none }

/-- A source ROOT file: whether `TFile::IsZombie()` holds, and its
directories with their keys. -/
structure SrcFile where
  isZombie : Bool
  dirs : List (String × List DirEntry)
deriving DecidableEq

/-- The embedding of the full `DataMCPlot::ReadFile`: `TFile::Open` yielded
`none` or a zombie file (`SourceUnavailable`), the directory may be absent
(`GroupNotFound`), otherwise the directory body `readDir` runs. -/
def readFile (src : Option SrcFile) (dirName : String) : Except LoadError Figure :=
  match src with
  | none => .error .sourceUnavailable
  | some f =>
      if f.isZombie then .error .sourceUnavailable
      else
        match f.dirs.find? (fun p => p.1 == dirName) with
        | none => .error .groupNotFound
        | some p => readDir p.2

/-! ## Post-load operations -/

/-- The total MC integral computed inside `NormalizeMCToData`. -/
def mcIntegral (fig : Figure) (isDensity : Bool) : ℚ :=
  (fig.mcHists.map (fun h => integral h isDensity)).sum

/-- The embedding of `DataMCPlot::NormalizeMCToData(isDensity)`
(DataMCPlot.cpp:60-80): every MC histogram is scaled in place by
`dataIntegral / mcIntegral`.  The body contains no `throw`; in particular a
zero `mcIntegral` is not detected (in C++ the division then yields an IEEE
infinity or NaN; in this exact embedding `x / 0 = 0`). -/
def normalizeMCToData (fig : Figure) (isDensity : Bool) : Figure :=
  let factor := integral fig.dataHist isDensity / mcIntegral fig isDensity
  { fig with mcHists := fig.mcHists.map (scaleHist factor) }

/-- The method `NormalizeMCToData` seen through the error monad used for the
throwing methods: since its body contains no `throw` statement, it always
returns `Except.ok`. -/
def normalizeMCToDataE (fig : Figure) (isDensity : Bool) : Except PlotError Figure :=
  Except.ok (normalizeMCToData fig isDensity)

/-- The embedding of `DataMCPlot::RequestResiduals(plotResiduals, min, max)`
(DataMCPlot.cpp:83-89): the three values are stored unchanged; the body
performs no validation. -/
def requestResiduals (fig : Figure) (plotResiduals' : Bool) (mn mx : ℚ) : Figure :=
  { fig with plotResiduals := plotResiduals', residualsRange := (mn, mx) }

/-- The total-MC histogram built at the start of the residuals block of
`Draw` (DataMCPlot.cpp:187-191): the first MC histogram is cloned as
`"mcTotalHist"` and every further one is added to it.  `none` when the MC
list is empty (in that state the C++ would dereference a past-the-end
iterator; `ReadFile` guarantees non-emptiness). -/
def mcTotalHist : List Hist → Option Hist
  | [] => none
  | h :: t => some (t.foldl (fun acc x => histAdd acc x 1) (cloneH h ("mcTotalHist")))

/-- The residuals histogram built by `Draw` (DataMCPlot.cpp:195-199): the
data histogram is cloned as `"residualsHist"`, the total MC is subtracted
(`Add` with coefficient `-1`) and the result is divided by the total MC. -/
def residualsOf (data total : Hist) : Hist :=
  histDivide (histAdd (cloneH data ("residualsHist")) total (-1)) total

/-- The residuals histogram produced by `Draw`, when residuals are
plotted. -/
def drawResiduals (fig : Figure) : Option Hist :=
  if fig.plotResiduals then
    (mcTotalHist fig.mcHists).map (fun tot => residualsOf fig.dataHist tot)
  else none

/-- The order in which `Draw` paints the MC stack, bottom layer first: the
loop at DataMCPlot.cpp:142-143 adds the MC histograms to the `THStack` in
reverse load order, and a `THStack` paints its histograms cumulatively with
the first-added one as the bottom layer. -/
def drawStackBottomToTop (fig : Figure) : List Hist :=
  fig.mcHists.reverse

/-- Wrapper turning the char-level title extraction into a `String`. -/
def extractXAxisTitleS (t : String) : String :=
  ⟨extractXAxisTitle t.data⟩

/-- The visual output of `Draw` retained by the embedding: the stack order
and the decorated residuals histogram. -/
structure DrawOutput where
  stackBottomToTop : List Hist
  residualsHist : Option Hist
deriving DecidableEq

/-- The embedding of `DataMCPlot::Draw` (DataMCPlot.cpp:92-284), restricted
to the state it stores and the computations the claims are about: the canvas
is created (width 1500, height `1000 / (1 - bottomSpacing)`), the MC stack
is filled in reverse load order, and, when requested, the residuals
histogram is built and its title is reset to
`";" ++ xAxisTitle ++ ";#frac\x7bData-MC\x7d\x7bMC\x7d"` with `xAxisTitle`
extracted from the figure title. -/
def draw (fig : Figure) : Figure × DrawOutput :=
  let bottomSpacing : ℚ := if fig.plotResiduals then 17 / 100 else 0
  let cv : Canvas :=
    { widthPx := 1500, heightPx := 1000 / (1 - bottomSpacing), labels := [] }
  let out : DrawOutput :=
    { stackBottomToTop := drawStackBottomToTop fig,
      residualsHist := (drawResiduals fig).map (fun r =>
        { r with htitle :=
            (";") ++ extractXAxisTitleS fig.title ++ (";#frac\x7bData-MC\x7d\x7bMC\x7d") }) }
  ({ fig with canvas := some cv }, out)

/-- The embedding of `DataMCPlot::AddCMSLabel` (DataMCPlot.cpp:287-304):
before `Draw` has created the canvas it throws (`FigureNotRendered`) and
renders nothing; afterwards it attaches the CMS `TLatex` to the canvas. -/
def addCMSLabel (fig : Figure) (additionalText : String) : Except PlotError Figure :=
  match fig.canvas with
  | none => .error .figureNotRendered
  | some cv =>
      let lbl : LatexLabel :=
        { xNDC := 16 / 100, yNDC := 91 / 100,
          text := ("#scale[1.2]\x7b#font[62]\x7bCMS\x7d\x7d #font[52]\x7b")
                  ++ additionalText ++ ("\x7d"),
          textSize := 4 / 100, align := 11 }
      .ok { fig with canvas := some { cv with labels := cv.labels ++ [lbl] } }

/-- The embedding of `DataMCPlot::AddEnergyLabel` (DataMCPlot.cpp:307-321):
before `Draw` has created the canvas it throws (`FigureNotRendered`) and
renders nothing; afterwards it attaches the energy `TLatex` to the
canvas. -/
def addEnergyLabel (fig : Figure) (text : String) : Except PlotError Figure :=
  match fig.canvas with
  | none => .error .figureNotRendered
  | some cv =>
      let lbl : LatexLabel :=
        { xNDC := 85 / 100, yNDC := 91 / 100, text := text,
          textSize := 4 / 100, align := 31 }
      .ok { fig with canvas := some { cv with labels := cv.labels ++ [lbl] } }

/-- The spec's per-bin residual value, including its NaN policy: the NaN
sentinel (`none`) when the total MC content is zero, otherwise the number
`(data - totalMC) / totalMC`.  This definition follows the spec's words and
is compared against the residuals the source computes. -/
def residualSpecCell (d m : ℚ) : Option ℚ :=
  if m = 0 then none else some ((d - m) / m)

/-- The spec's NaN sentinel in the value-or-NaN domain `Option ℚ`. -/
def nanSentinel : Option ℚ := none

/-! ## Concrete instances used by witnesses and counterexamples -/

/-- A one-bin data histogram with content 10 in the nominal bin. -/
def exData : Hist :=
  { name := "data", htitle := "Data", widths := [1],
    contents := [0, 10, 0], sumw2 := [0, 10, 0] }

/-- A one-bin MC histogram with content 4. -/
def exMCA : Hist :=
  { name := "procA", htitle := "Process A", widths := [1],
    contents := [0, 4, 0], sumw2 := [0, 4, 0] }

/-- A second one-bin MC histogram with content 4. -/
def exMCB : Hist :=
  { name := "procB", htitle := "Process B", widths := [1],
    contents := [0, 4, 0], sumw2 := [0, 4, 0] }

/-- A third one-bin MC histogram with content 2. -/
def exMCC : Hist :=
  { name := "procC", htitle := "Process C", widths := [1],
    contents := [0, 2, 0], sumw2 := [0, 2, 0] }

/-- A systematic-variation histogram, stored under the reserved key
`syst_up`. -/
def exSystUp : Hist :=
  { name := "syst_up", htitle := "Systematic up", widths := [1],
    contents := [0, 9, 0], sumw2 := [0, 9, 0] }

/-- A one-bin MC histogram whose contents are all zero. -/
def exZeroMC : Hist :=
  { name := "procZero", htitle := "Empty process", widths := [1],
    contents := [0, 0, 0], sumw2 := [0, 0, 0] }

/-- A directory with a title, the data histogram, two MC histograms and a
systematics histogram (to be skipped). -/
def exEntries : List DirEntry :=
  [ { name := "title", obj := .objString ("t;x;y") },
    { name := "data", obj := .histObj ("TH1D") exData },
    { name := "procA", obj := .histObj ("TH1D") exMCA },
    { name := "procB", obj := .histObj ("TH1D") exMCB },
    { name := "syst_up", obj := .histObj ("TH1D") exSystUp } ]

/-- The figure `readDir` produces from `exEntries`. -/
def exFigure : Figure :=
  { title := "t;x;y", dataHist := exData, mcHists := [exMCA, exMCB],
    plotResiduals := true, residualsRange := (-(25 / 100 : ℚ), 28 / 100),
    canvas := none }

/-- A figure whose only MC histogram has zero contents everywhere, so that
its total MC integral is zero. -/
def exFigZeroMC : Figure :=
  { title := "", dataHist := exData, mcHists := [exZeroMC],
    plotResiduals := true, residualsRange := (-(25 / 100 : ℚ), 28 / 100),
    canvas := none }

/-- A figure with three MC histograms loaded in the order A, B, C. -/
def exFigThree : Figure :=
  { title := "t;x;y", dataHist := exData, mcHists := [exMCA, exMCB, exMCC],
    plotResiduals := true, residualsRange := (-(25 / 100 : ℚ), 28 / 100),
    canvas := none }

/-- A directory with a title and an MC histogram but no `data` entry. -/
def exEntriesNoData : List DirEntry :=
  [ { name := "title", obj := .objString ("t;x;y") },
    { name := "procA", obj := .histObj ("TH1D") exMCA } ]

/-- A healthy source file whose only directory, `figs`, lacks the `data`
entry. -/
def exSrcFileNoData : SrcFile :=
  { isZombie := false, dirs := [(("figs"), exEntriesNoData)] }

/-! ## Helper lemmas on cell access -/

/-- Reading cell `i` of an index-generated cell list. -/
theorem getD_rangeMap (n : Nat) (g : Nat → ℚ) (i : Nat) :
    (((List.range n).map g).getD i 0) = if i < n then g i else 0 := by
  by_cases h : i < n
  · rw [List.getD_eq_getElem _ _ (by simpa using h)]
    simp [h]
  · rw [List.getD_eq_default _ _ (by simpa using Nat.le_of_not_lt h), if_neg h]

/-- Reading a cell past the end of a histogram yields the default `0`. -/
theorem getD_of_length_le {l : List ℚ} {i : Nat} (h : l.length ≤ i) :
    l.getD i 0 = 0 :=
  List.getD_eq_default _ _ h

/-- Cell contents of `histAdd` under consistent binning. -/
theorem histAdd_contents_getD {a b : Hist} (c : ℚ) (hs : sameBinning a b) (i : Nat) :
    (histAdd a b c).contents.getD i 0 =
      a.contents.getD i 0 + c * b.contents.getD i 0 := by
  unfold histAdd
  rw [if_pos hs]
  rw [getD_rangeMap]
  by_cases h : i < a.contents.length
  · simp [h]
  · have ha : a.contents.getD i 0 = 0 := getD_of_length_le (Nat.le_of_not_lt h)
    have hb : b.contents.getD i 0 = 0 :=
      getD_of_length_le (hs.1 ▸ Nat.le_of_not_lt h)
    rw [if_neg h, ha, hb]
    ring

/-- The number of cells of `histAdd` under consistent binning. -/
theorem histAdd_contents_length {a b : Hist} (c : ℚ) (hs : sameBinning a b) :
    (histAdd a b c).contents.length = a.contents.length := by
  unfold histAdd
  rw [if_pos hs]
  simp

/-- `histAdd` never changes the binning. -/
theorem histAdd_widths (a b : Hist) (c : ℚ) :
    (histAdd a b c).widths = a.widths := by
  unfold histAdd
  by_cases hs : sameBinning a b <;> simp [hs]

/-- Cell contents of `histDivide` under consistent binning: the ROOT rule,
quotient where the denominator is non-zero and `0` where it is zero. -/
theorem histDivide_contents_getD {a b : Hist} (hs : sameBinning a b) (i : Nat) :
    (histDivide a b).contents.getD i 0 =
      if b.contents.getD i 0 = 0 then 0
      else a.contents.getD i 0 / b.contents.getD i 0 := by
  unfold histDivide
  rw [if_pos hs]
  rw [getD_rangeMap]
  by_cases h : i < a.contents.length
  · simp [h]
  · have ha : a.contents.getD i 0 = 0 := getD_of_length_le (Nat.le_of_not_lt h)
    have hb : b.contents.getD i 0 = 0 :=
      getD_of_length_le (hs.1 ▸ Nat.le_of_not_lt h)
    rw [if_neg h, hb, if_pos rfl]

/-- Accumulating MC histograms with `histAdd` sums their cells, provided all
of them share the binning `(n, w)`. -/
theorem foldl_histAdd_spec (n : Nat) (w : List ℚ) :
    ∀ (l : List Hist) (acc : Hist),
      acc.contents.length = n → acc.widths = w →
      (∀ g ∈ l, g.contents.length = n ∧ g.widths = w) →
      (l.foldl (fun a x => histAdd a x 1) acc).contents.length = n ∧
      (l.foldl (fun a x => histAdd a x 1) acc).widths = w ∧
      ∀ i, (l.foldl (fun a x => histAdd a x 1) acc).contents.getD i 0 =
        acc.contents.getD i 0 + (l.map (fun g => g.contents.getD i 0)).sum := by
  intro l
  induction l with
  | nil => intro acc h1 h2 _; simpa using ⟨h1, h2⟩
  | cons g t ih =>
      intro acc h1 h2 h3
      have hg := h3 g (List.mem_cons_self g t)
      have hs : sameBinning acc g := ⟨h1.trans hg.1.symm, h2.trans hg.2.symm⟩
      have hlen : (histAdd acc g 1).contents.length = n :=
        (histAdd_contents_length 1 hs).trans h1
      have hw : (histAdd acc g 1).widths = w := (histAdd_widths acc g 1).trans h2
      have ht : ∀ x ∈ t, x.contents.length = n ∧ x.widths = w :=
        fun x hx => h3 x (List.mem_cons_of_mem g hx)
      obtain ⟨r1, r2, r3⟩ := ih (histAdd acc g 1) hlen hw ht
      refine ⟨r1, r2, fun i => ?_⟩
      rw [List.foldl_cons] at *
      rw [r3 i, histAdd_contents_getD 1 hs i]
      simp [add_assoc]

/-! ## Helper lemmas on integrals -/

/-- Factoring a common multiplier out of a list sum. -/
theorem sum_map_mul (f : ℚ) (l : List ℚ) :
    (l.map (fun x => f * x)).sum = f * l.sum := by
  induction l with
  | nil => simp
  | cons x t ih => simp [ih, mul_add]

/-- Factoring a common multiplier out of a cell-weighted sum. -/
theorem sum_zipWith_mul (f : ℚ) :
    ∀ (a b : List ℚ),
      (List.zipWith (fun x w => x * w) (a.map (fun x => f * x)) b).sum =
        f * (List.zipWith (fun x w => x * w) a b).sum := by
  intro a
  induction a with
  | nil => intro b; simp
  | cons x t ih =>
      intro b
      cases b with
      | nil => simp
      | cons y u => simp [ih u, mul_add, mul_assoc]

/-- `TH1::Scale` is linear for `TH1::Integral`, for either integration
convention. -/
theorem integral_scaleHist (f : ℚ) (h : Hist) (d : Bool) :
    integral (scaleHist f h) d = f * integral h d := by
  have hcw : cellWeight (scaleHist f h) = cellWeight h := rfl
  have hc : (scaleHist f h).contents = h.contents.map (fun x => f * x) := rfl
  cases d with
  | false => simp [integral, scaleHist, sum_map_mul]
  | true =>
      show (List.zipWith (fun x w => x * w) (scaleHist f h).contents
          ((List.range (scaleHist f h).contents.length).map (cellWeight (scaleHist f h)))).sum =
        f * (List.zipWith (fun x w => x * w) h.contents
          ((List.range h.contents.length).map (cellWeight h))).sum
      rw [hc, hcw]
      simp only [List.length_map]
      exact sum_zipWith_mul f h.contents _

/-! ## C2: zero MC integral at normalize time -/

/-- Claim C2 states that a figure with zero total MC integral makes
`NormalizeMCToData` report a `DegenerateNormalization` error.  The method
has no error path at all: its body (DataMCPlot.cpp:60-80) contains no
`throw` and no check of `mcIntegral`, so it divides by zero and scales the
MC histograms with the result (in IEEE doubles an infinity or NaN; in this
exact embedding the division-by-zero convention `x / 0 = 0`).  This theorem
is the amended claim: on every figure with zero MC integral the call
reports no error whatsoever, and every MC histogram is still rescaled in
place by the ill-defined factor `dataIntegral / mcIntegral`. -/
theorem normalizeMCToData_zero_mc_silent (fig : Figure) (d : Bool)
    (_hzero : mcIntegral fig d = 0) :
    (∀ e : PlotError, normalizeMCToDataE fig d ≠ Except.error e) ∧
    (normalizeMCToData fig d).mcHists =
      fig.mcHists.map (scaleHist (integral fig.dataHist d / mcIntegral fig d)) := by
  refine ⟨fun e h => ?_, rfl⟩
  simp [normalizeMCToDataE] at h

/-- Witness for the amended C2 theorem at a concrete figure whose only MC
histogram is identically zero. -/
theorem normalizeMCToData_zero_mc_silent_witness :
    mcIntegral exFigZeroMC false = 0 ∧
    ((∀ e : PlotError, normalizeMCToDataE exFigZeroMC false ≠ Except.error e) ∧
     (normalizeMCToData exFigZeroMC false).mcHists =
       exFigZeroMC.mcHists.map
         (scaleHist (integral exFigZeroMC.dataHist false / mcIntegral exFigZeroMC false))) := by
  have hz : mcIntegral exFigZeroMC false = 0 := by
    simp [mcIntegral, integral, exFigZeroMC, exZeroMC]
  exact ⟨hz, normalizeMCToData_zero_mc_silent exFigZeroMC false hz⟩

/-- Counterexample to claim C2 as stated: `exFigZeroMC` has zero total MC
integral, yet `NormalizeMCToData` does not report the
`DegenerateNormalization` error (it returns normally). -/
theorem normalizeMCToData_zero_mc_cex :
    mcIntegral exFigZeroMC false = 0 ∧
    normalizeMCToDataE exFigZeroMC false ≠
      Except.error PlotError.degenerateNormalization := by
  constructor
  · simp [mcIntegral, integral, exFigZeroMC, exZeroMC]
  · simp [normalizeMCToDataE]

/-! ## C5: stacking order -/

/-- Claim C5: `Draw` adds the MC histograms to the `THStack` in reverse load
order (the loop at DataMCPlot.cpp:142-143 iterates `crbegin .. crend`), so a
figure with MC histograms loaded in order `[A, B, C]` has bottom-to-top
visual stack order `[C, B, A]`; since the stack order is a function of the
load order alone, it is deterministic. -/
theorem drawStackBottomToTop_reverse (fig : Figure) (A B C : Hist)
    (h : fig.mcHists = [A, B, C]) :
    drawStackBottomToTop fig = [C, B, A] ∧
    (draw fig).2.stackBottomToTop = fig.mcHists.reverse := by
  constructor
  · simp [drawStackBottomToTop, h]
  · rfl

/-- Witness for C5 at a concrete figure with three MC histograms. -/
theorem drawStackBottomToTop_reverse_witness :
    exFigThree.mcHists = [exMCA, exMCB, exMCC] ∧
    (drawStackBottomToTop exFigThree = [exMCC, exMCB, exMCA] ∧
     (draw exFigThree).2.stackBottomToTop = exFigThree.mcHists.reverse) :=
  ⟨rfl, drawStackBottomToTop_reverse exFigThree exMCA exMCB exMCC rfl⟩

/-! ## C6: the residuals-range invariant -/

/-- Claim C6 states the invariant `min < max` after any
`RequestResiduals(enabled, min, max)` call.  The method
(DataMCPlot.cpp:83-89) stores the two values without any validation, so the
invariant holds exactly when the caller already supplied `min < max`; this
theorem is the amended claim. -/
theorem requestResiduals_stores_range (fig : Figure) (pr : Bool) (mn mx : ℚ) :
    (requestResiduals fig pr mn mx).residualsRange = (mn, mx) ∧
    ((requestResiduals fig pr mn mx).residualsRange.1 <
      (requestResiduals fig pr mn mx).residualsRange.2 ↔ mn < mx) := by
  exact ⟨rfl, Iff.rfl⟩

/-- Counterexample to claim C6 as stated: requesting residuals on the loaded
figure `exFigure` (reachable: it is exactly what the loader produces from
`exEntries`) with the range `[1, 0]` leaves the stored range violating
`min < max`. -/
theorem requestResiduals_invariant_cex :
    readDir exEntries = Except.ok exFigure ∧
    ¬ ((requestResiduals exFigure true 1 0).residualsRange.1 <
       (requestResiduals exFigure true 1 0).residualsRange.2) := by
  constructor
  · rfl
  · simp [requestResiduals]

/-! ## C8: annotations before rendering -/

/-- Claim C8: on a figure whose canvas does not yet exist (`Draw` has not
been called), both `AddCMSLabel` and `AddEnergyLabel` throw the
`FigureNotRendered` error (DataMCPlot.cpp:289-290 and 309-310) instead of
triggering a render: the error return carries no figure and no canvas is
created. -/
theorem annotate_before_draw_errors (fig : Figure) (s t : String)
    (h : fig.canvas = none) :
    addCMSLabel fig s = Except.error PlotError.figureNotRendered ∧
    addEnergyLabel fig t = Except.error PlotError.figureNotRendered := by
  constructor <;> simp [addCMSLabel, addEnergyLabel, h]

/-- Witness for C8 at the freshly loaded figure `exFigure`, whose canvas is
absent. -/
theorem annotate_before_draw_errors_witness :
    exFigure.canvas = none ∧
    (addCMSLabel exFigure ("Preliminary") = Except.error PlotError.figureNotRendered ∧
     addEnergyLabel exFigure ("20 fb (8 TeV)") = Except.error PlotError.figureNotRendered) :=
  ⟨rfl, annotate_before_draw_errors exFigure ("Preliminary") ("20 fb (8 TeV)") rfl⟩

/-! ## C10: the frame of NormalizeMCToData -/

/-- Claim C10: `NormalizeMCToData` only touches the MC histograms
(DataMCPlot.cpp:78-79 scales `mcHists` in place and nothing else): the data
histogram (hence its bin contents and uncertainties), the figure title, the
residuals toggle, the residuals range and the canvas are all unchanged, for
either value of `isDensity`. -/
theorem normalizeMCToData_frame (fig : Figure) (d : Bool) :
    (normalizeMCToData fig d).dataHist = fig.dataHist ∧
    (normalizeMCToData fig d).title = fig.title ∧
    (normalizeMCToData fig d).plotResiduals = fig.plotResiduals ∧
    (normalizeMCToData fig d).residualsRange = fig.residualsRange ∧
    (normalizeMCToData fig d).canvas = fig.canvas :=
  ⟨rfl, rfl, rfl, rfl, rfl⟩

/-! ## C3: normalization matches the data integral -/

/-- Claim C3: on any figure with non-zero total MC integral,
`NormalizeMCToData(isDensity)` scales every MC histogram — contents by
`factor = dataIntegral / mcIntegral` and squared uncertainties (`fSumw2`) by
`factor ^ 2`, which is what `TH1::Scale(factor)` does in place — and
afterwards the sum over all MC histograms of the bin contents
(width-weighted iff `isDensity`, with under/overflow accumulators included)
equals the data histogram's integral computed with the same convention; in
this exact embedding the equality is exact rather than up to floating-point
tolerance. -/
theorem normalizeMCToData_matches_data (fig : Figure) (d : Bool)
    (hmc : mcIntegral fig d ≠ 0) :
    mcIntegral (normalizeMCToData fig d) d = integral fig.dataHist d ∧
    (normalizeMCToData fig d).mcHists =
      fig.mcHists.map (scaleHist (integral fig.dataHist d / mcIntegral fig d)) := by
  refine ⟨?_, rfl⟩
  have h1 : (normalizeMCToData fig d).mcHists.map (fun h => integral h d) =
      (fig.mcHists.map (fun h => integral h d)).map
        (fun x => (integral fig.dataHist d / mcIntegral fig d) * x) := by
    show (fig.mcHists.map
        (scaleHist (integral fig.dataHist d / mcIntegral fig d))).map
          (fun h => integral h d) = _
    rw [List.map_map, List.map_map]
    apply List.map_congr_left
    intro h _
    exact integral_scaleHist _ h d
  show ((normalizeMCToData fig d).mcHists.map (fun h => integral h d)).sum =
    integral fig.dataHist d
  rw [h1, sum_map_mul]
  exact div_mul_cancel₀ (integral fig.dataHist d) hmc

/-- Witness for C3 at `exFigure`: data integral 10, MC integrals 4 and 4. -/
theorem normalizeMCToData_matches_data_witness :
    mcIntegral exFigure false ≠ 0 ∧
    (mcIntegral (normalizeMCToData exFigure false) false =
       integral exFigure.dataHist false ∧
     (normalizeMCToData exFigure false).mcHists =
       exFigure.mcHists.map
         (scaleHist (integral exFigure.dataHist false / mcIntegral exFigure false))) := by
  have hne : mcIntegral exFigure false ≠ 0 := by
    norm_num [mcIntegral, integral, exFigure, exMCA, exMCB]
  exact ⟨hne, normalizeMCToData_matches_data exFigure false hne⟩

/-! ## C1: the residuals computation -/

/-- Claim C1 states that for every bin with zero total MC the residual is
the NaN sentinel.  In the source (DataMCPlot.cpp:195-199) the residuals
histogram is produced by `TH1::Add(mcTotalHist, -1)` followed by
`TH1::Divide(mcTotalHist)`, and ROOT's `Divide` writes the number `0` into
any bin whose denominator vanishes — no IEEE division runs, no NaN appears
and nothing is thrown.  This theorem is the amended claim: when residuals
are plotted, `Draw` builds `totalMC` as the bin-wise sum of all MC
histograms and computes `residual[i] = (data[i] - totalMC[i]) / totalMC[i]`
for every bin with `totalMC[i] ≠ 0`, while every bin with `totalMC[i] = 0`
gets the residual `0` (not NaN), still without an exception. -/
theorem drawResiduals_formula (fig : Figure) (hpr : fig.plotResiduals = true)
    (hne : fig.mcHists ≠ [])
    (hcons : ∀ g ∈ fig.mcHists, sameBinning g fig.dataHist) :
    ∃ total res, mcTotalHist fig.mcHists = some total ∧
      drawResiduals fig = some res ∧
      (∀ i, total.contents.getD i 0 =
        (fig.mcHists.map (fun g => g.contents.getD i 0)).sum) ∧
      (∀ i, res.contents.getD i 0 =
        if total.contents.getD i 0 = 0 then 0
        else (fig.dataHist.contents.getD i 0 - total.contents.getD i 0) /
             total.contents.getD i 0) := by
  rcases hm : fig.mcHists with _ | ⟨h, t⟩
  · exact absurd hm hne
  set n := fig.dataHist.contents.length with hn
  set w := fig.dataHist.widths with hw
  have hh : h.contents.length = n ∧ h.widths = w := by
    have := hcons h (by rw [hm]; exact List.mem_cons_self h t)
    exact ⟨this.1, this.2⟩
  have ht : ∀ g ∈ t, g.contents.length = n ∧ g.widths = w := by
    intro g hg
    have := hcons g (by rw [hm]; exact List.mem_cons_of_mem h hg)
    exact ⟨this.1, this.2⟩
  have hclone : (cloneH h ("mcTotalHist")).contents.length = n ∧
      (cloneH h ("mcTotalHist")).widths = w := hh
  obtain ⟨r1, r2, r3⟩ :=
    foldl_histAdd_spec n w t (cloneH h ("mcTotalHist")) hclone.1 hclone.2 ht
  set total := t.foldl (fun acc x => histAdd acc x 1) (cloneH h ("mcTotalHist"))
    with htotal
  have htot : mcTotalHist (h :: t) = some total := rfl
  refine ⟨total, residualsOf fig.dataHist total, htot, ?_, ?_, ?_⟩
  · unfold drawResiduals
    rw [hpr, hm, htot]
    rfl
  · intro i
    rw [r3 i, List.map_cons, List.sum_cons]
    rfl
  · intro i
    have hsb1 : sameBinning (cloneH fig.dataHist ("residualsHist")) total :=
      ⟨r1.symm, r2.symm⟩
    have hsb2 : sameBinning
        (histAdd (cloneH fig.dataHist ("residualsHist")) total (-1)) total := by
      refine ⟨?_, ?_⟩
      · rw [histAdd_contents_length (-1) hsb1]
        exact r1.symm
      · rw [histAdd_widths]
        exact r2.symm
    show (histDivide (histAdd (cloneH fig.dataHist ("residualsHist")) total (-1))
        total).contents.getD i 0 = _
    rw [histDivide_contents_getD hsb2 i]
    by_cases hz : total.contents.getD i 0 = 0
    · rw [if_pos hz, if_pos hz]
    · rw [if_neg hz, if_neg hz, histAdd_contents_getD (-1) hsb1 i]
      show ((fig.dataHist.contents.getD i 0) + (-1) * total.contents.getD i 0) /
          total.contents.getD i 0 = _
      ring_nf

/-- Witness for the amended C1 theorem at the three-histogram figure
`exFigThree` (consistent binning, residuals requested). -/
theorem drawResiduals_formula_witness :
    (exFigThree.plotResiduals = true ∧ exFigThree.mcHists ≠ [] ∧
     (∀ g ∈ exFigThree.mcHists, sameBinning g exFigThree.dataHist)) ∧
    (∃ total res, mcTotalHist exFigThree.mcHists = some total ∧
      drawResiduals exFigThree = some res ∧
      (∀ i, total.contents.getD i 0 =
        (exFigThree.mcHists.map (fun g => g.contents.getD i 0)).sum) ∧
      (∀ i, res.contents.getD i 0 =
        if total.contents.getD i 0 = 0 then 0
        else (exFigThree.dataHist.contents.getD i 0 - total.contents.getD i 0) /
             total.contents.getD i 0)) := by
  have h1 : exFigThree.plotResiduals = true := rfl
  have h2 : exFigThree.mcHists ≠ [] := by simp [exFigThree]
  have h3 : ∀ g ∈ exFigThree.mcHists, sameBinning g exFigThree.dataHist := by
    intro g hg
    simp [exFigThree, exMCA, exMCB, exMCC] at hg
    rcases hg with rfl | rfl | rfl <;>
      simp [sameBinning, exMCA, exMCB, exMCC, exFigThree, exData]
  exact ⟨⟨h1, h2, h3⟩, drawResiduals_formula exFigThree h1 h2 h3⟩

/-- Counterexample to claim C1 as stated: in `exFigZeroMC` the residuals
are plotted, the total MC content of bin 1 is `0` and the data content is
`10`; the residual the code computes at that bin is the number `0`, not the
NaN sentinel the claim (and `residualSpecCell`, which renders the claim's
per-bin policy) requires. -/
theorem drawResiduals_nan_cex :
    (mcTotalHist exFigZeroMC.mcHists).map (fun tot => tot.contents.getD 1 0) =
      some 0 ∧
    exFigZeroMC.dataHist.contents.getD 1 0 = 10 ∧
    (drawResiduals exFigZeroMC).map (fun r => r.contents.getD 1 0) = some 0 ∧
    residualSpecCell 10 0 = nanSentinel ∧
    ∀ q : ℚ, some q ≠ nanSentinel := by
  refine ⟨rfl, rfl, rfl, rfl, fun q h => Option.noConfusion h⟩

/-! ## C4: what the loader accepts as MC histograms -/

/-- A directory key whose stored object is a histogram stores it under the
histogram's own name — the invariant ROOT maintains when a histogram is
written to a file, which `ReadFile` relies on when it re-reads each
enumerated key by name. -/
def histNameMatches (e : DirEntry) : Prop :=
  match e.obj with
  | .histObj _ h => h.name = e.name
  | _ => True

instance (e : DirEntry) : Decidable (histNameMatches e) := by
  unfold histNameMatches
  rcases e.obj <;> infer_instance

/-- Claim C4: every successful load yields a non-empty MC collection (zero
survivors raise `NoSimulationFound`, DataMCPlot.cpp:429-435), each MC
histogram stems from a directory key of a one-dimensional numeric histogram
class (`TH1D/TH1F/TH1I/TH1S/TH1C`, DataMCPlot.cpp:412-414), and none of them
is named `data`, `syst_up` or `syst_down` (DataMCPlot.cpp:420-421). -/
theorem readDir_mc_valid (entries : List DirEntry)
    (hnm : ∀ e ∈ entries, histNameMatches e)
    (fig : Figure) (hok : readDir entries = Except.ok fig) :
    fig.mcHists ≠ [] ∧
    ∀ h ∈ fig.mcHists,
      (∃ e ∈ entries, ∃ cls, e.obj = StoredObj.histObj cls h ∧
        cls ∈ oneDimHistClasses) ∧
      h.name ≠ "data" ∧ h.name ≠ "syst_up" ∧ h.name ≠ "syst_down" := by
  unfold readDir at hok
  rcases hdata : (dirGet entries ("data")).bind castTH1 with _ | dh
  · rw [hdata] at hok
    dsimp only at hok
    exact Except.noConfusion hok
  rw [hdata] at hok
  dsimp only at hok
  by_cases hemp : entries.filterMap mcKeyFilter = []
  · rw [if_pos hemp] at hok
    exact Except.noConfusion hok
  rw [if_neg hemp] at hok
  have hfig : fig.mcHists = entries.filterMap mcKeyFilter := by
    cases hok
    rfl
  constructor
  · rw [hfig]
    exact hemp
  · intro h hh
    rw [hfig] at hh
    obtain ⟨e, he, hfe⟩ := List.mem_filterMap.mp hh
    rcases heo : e.obj with s | ⟨cls, h'⟩ | cls
    · rw [mcKeyFilter, heo] at hfe
      exact Option.noConfusion hfe
    · rw [mcKeyFilter, heo] at hfe
      dsimp only at hfe
      by_cases hcond : cls ∈ oneDimHistClasses ∧ e.name ∉ reservedNames
      · rw [if_pos hcond] at hfe
        have hh' : h' = h := Option.some.inj hfe
        subst hh'
        have hname : h'.name = e.name := by
          have := hnm e he
          rw [histNameMatches, heo] at this
          exact this
        have hnr : e.name ≠ "data" ∧ e.name ≠ "syst_up" ∧ e.name ≠ "syst_down" := by
          have := hcond.2
          simp [reservedNames] at this
          exact this
        exact ⟨⟨e, he, cls, heo, hcond.1⟩,
          hname ▸ hnr.1, hname ▸ hnr.2.1, hname ▸ hnr.2.2⟩
      · rw [if_neg hcond] at hfe
        exact Option.noConfusion hfe
    · rw [mcKeyFilter, heo] at hfe
      exact Option.noConfusion hfe

/-- Witness for C4 at the concrete directory `exEntries`: the load succeeds
and produces the MC histograms `procA` and `procB`, skipping `data` and
`syst_up`. -/
theorem readDir_mc_valid_witness :
    (∀ e ∈ exEntries, histNameMatches e) ∧
    (exFigure.mcHists ≠ [] ∧
     ∀ h ∈ exFigure.mcHists,
       (∃ e ∈ exEntries, ∃ cls, e.obj = StoredObj.histObj cls h ∧
         cls ∈ oneDimHistClasses) ∧
       h.name ≠ "data" ∧ h.name ≠ "syst_up" ∧ h.name ≠ "syst_down") := by
  have hnm : ∀ e ∈ exEntries, histNameMatches e := by
    intro e he
    fin_cases he <;> simp [histNameMatches, exData, exMCA, exMCB, exSystUp]
  exact ⟨hnm, readDir_mc_valid exEntries hnm exFigure rfl⟩

/-! ## C7: missing data histogram -/

/-- Claim C7: for any container and sub-directory that resolve successfully
but whose directory holds no entry named `data`, `ReadFile` fails with the
`MissingDataHistogram` error (DataMCPlot.cpp:386-395); the error return
carries no figure, so none is constructed (the C++ constructor throws before
completing). -/
theorem readFile_missing_data (f : SrcFile) (hz : f.isZombie = false)
    (dirName : String) (p : String × List DirEntry)
    (hdir : f.dirs.find? (fun q => q.1 == dirName) = some p)
    (hnod : ∀ e ∈ p.2, e.name ≠ "data") :
    readFile (some f) dirName = Except.error LoadError.missingDataHistogram := by
  have hget : dirGet p.2 ("data") = none := by
    unfold dirGet
    rw [List.find?_eq_none.mpr ?_]
    · rfl
    · intro e he
      simpa using hnod e he
  unfold readFile
  dsimp only
  rw [hz, hdir]
  simp only [Bool.false_eq_true, if_false]
  show readDir p.2 = _
  unfold readDir
  rw [hget]
  rfl

/-- Witness for C7 at a concrete source file whose directory `figs` has a
title and an MC histogram but no `data` entry. -/
theorem readFile_missing_data_witness :
    exSrcFileNoData.isZombie = false ∧
    exSrcFileNoData.dirs.find? (fun q => q.1 == ("figs")) =
      some (("figs"), exEntriesNoData) ∧
    (∀ e ∈ exEntriesNoData, e.name ≠ "data") ∧
    readFile (some exSrcFileNoData) ("figs") =
      Except.error LoadError.missingDataHistogram := by
  refine ⟨rfl, rfl, ?_, ?_⟩
  · intro e he
    fin_cases he <;> decide
  · exact readFile_missing_data exSrcFileNoData rfl ("figs")
      (("figs"), exEntriesNoData) rfl (by intro e he; fin_cases he <;> decide)

/-! ## C9: extraction of the x-axis title -/

/-- Searching a string free of `c` finds nothing. -/
theorem strFindAux_eq_none {c : Char} :
    ∀ {s : List Char}, (∀ x ∈ s, x ≠ c) → strFindAux s c = none := by
  intro s
  induction s with
  | nil => intro _; rfl
  | cons x t ih =>
      intro h
      rw [show strFindAux (x :: t) c =
        if x = c then some 0 else (strFindAux t c).map (fun i => i + 1) from rfl]
      rw [if_neg (h x (List.mem_cons_self x t)),
        ih (fun y hy => h y (List.mem_cons_of_mem x hy))]
      rfl

/-- Searching a string containing `c` finds the index of its first
occurrence, which is the length of the prefix free of `c`. -/
theorem strFindAux_of_mem {c : Char} :
    ∀ {s : List Char}, c ∈ s →
      strFindAux s c = some ((s.takeWhile (fun a => a != c)).length) := by
  intro s
  induction s with
  | nil => intro h; cases h
  | cons x t ih =>
      intro h
      rw [show strFindAux (x :: t) c =
        if x = c then some 0 else (strFindAux t c).map (fun i => i + 1) from rfl]
      by_cases hx : x = c
      · rw [if_pos hx, List.takeWhile_cons_of_neg (by simp [hx])]
        rfl
      · have ht : c ∈ t := by
          rcases List.mem_cons.mp h with h1 | h2
          · exact absurd h1.symm hx
          · exact h2
        rw [if_neg hx, ih ht, List.takeWhile_cons_of_pos (by simp [hx])]
        rfl

/-- Dropping the `c`-free prefix is the same as `dropWhile`. -/
theorem drop_length_takeWhile (p : Char → Bool) :
    ∀ s : List Char, s.drop ((s.takeWhile p).length) = s.dropWhile p := by
  intro s
  induction s with
  | nil => rfl
  | cons x t ih =>
      by_cases hx : p x
      · rw [List.takeWhile_cons_of_pos hx, List.dropWhile_cons_of_pos hx,
          List.length_cons, List.drop_succ_cons, ih]
      · rw [List.takeWhile_cons_of_neg hx, List.dropWhile_cons_of_neg hx]
        rfl

/-- On a string containing `c`, `dropWhile` stops exactly at the first
`c`. -/
theorem dropWhile_ne_eq_cons {c : Char} :
    ∀ {s : List Char}, c ∈ s →
      ∃ rest, s.dropWhile (fun a => a != c) = c :: rest := by
  intro s
  induction s with
  | nil => intro h; cases h
  | cons x t ih =>
      intro h
      by_cases hx : x = c
      · refine ⟨t, ?_⟩
        rw [List.dropWhile_cons_of_neg (by simp [hx]), hx]
      · have ht : c ∈ t := by
          rcases List.mem_cons.mp h with h1 | h2
          · exact absurd h1.symm hx
          · exact h2
        obtain ⟨rest, hr⟩ := ih ht
        exact ⟨rest, by rw [List.dropWhile_cons_of_pos (by simp [hx]), hr]⟩

/-- `takeWhile` keeps a string free of `c` whole. -/
theorem takeWhile_ne_eq_self {c : Char} :
    ∀ {s : List Char}, (∀ x ∈ s, x ≠ c) → s.takeWhile (fun a => a != c) = s := by
  intro s
  induction s with
  | nil => intro _; rfl
  | cons x t ih =>
      intro h
      rw [List.takeWhile_cons_of_pos (by simp [h x (List.mem_cons_self x t)]),
        ih (fun y hy => h y (List.mem_cons_of_mem x hy))]

/-- Taking as many characters as `takeWhile` keeps reproduces
`takeWhile`. -/
theorem take_length_takeWhile (p : Char → Bool) :
    ∀ s : List Char, s.take ((s.takeWhile p).length) = s.takeWhile p := by
  intro s
  induction s with
  | nil => rfl
  | cons x t ih =>
      by_cases hx : p x
      · rw [List.takeWhile_cons_of_pos hx, List.length_cons,
          List.take_succ_cons, ih]
      · rw [List.takeWhile_cons_of_neg hx]
        rfl

/-- `takeWhile` never keeps more characters than the string has. -/
theorem length_takeWhile_le' (p : Char → Bool) :
    ∀ s : List Char, (s.takeWhile p).length ≤ s.length := by
  intro s
  induction s with
  | nil => simp
  | cons x t ih =>
      rw [List.takeWhile_cons]
      by_cases hx : p x
      · rw [if_pos hx, List.length_cons, List.length_cons]
        exact Nat.succ_le_succ ih
      · rw [if_neg hx]
        simp

/-- The `SIZE_MAX` value fits in `std::size_t`. -/
theorem npos_lt_size : npos < 2 ^ 64 := by norm_num [npos]

/-- Adding one full modulus does not change a reduced `std::size_t`
value. -/
theorem size_mod_self_add (j : Nat) (h : j < 2 ^ 64) :
    (j + 2 ^ 64) % 2 ^ 64 = j := by
  rw [Nat.add_mod_right]
  exact Nat.mod_eq_of_lt h

/-- Claim C9 states that the x-axis title used for the residuals panel is
exactly the second semicolon-separated field of the figure title, and in
particular empty for a title with no semicolon.  The extraction
(DataMCPlot.cpp:227-230) does produce the second field whenever the title
contains at least one `;` — also when the third (y-axis) field is absent —
but for a title with no `;` at all, `find_first_of` returns `npos`,
`pos1 + 1` wraps around to `0` in `std::size_t` arithmetic, and
`substr(0, npos - npos - 1)` returns the whole title, not the empty string.
This theorem is the amended claim, for every title shorter than `npos`
characters (as every `std::string` is). -/
theorem extractXAxisTitle_eq_specField (title : List Char)
    (hlen : title.length < npos) :
    extractXAxisTitle title =
      if (';') ∈ title then specXAxisField title else title := by
  have hunfold : extractXAxisTitle title =
      substr title ((findFirstOf title ';' 0 + 1) % 2 ^ 64)
        ((findFirstOf title ';' ((findFirstOf title ';' 0 + 1) % 2 ^ 64) +
          2 ^ 64 - (findFirstOf title ';' 0 + 1)) % 2 ^ 64) := rfl
  have hlen64 : title.length < 2 ^ 64 := lt_trans hlen npos_lt_size
  by_cases hmem : (';') ∈ title
  · rw [hunfold, if_pos hmem]
    have hfind1 : findFirstOf title ';' 0 =
        (title.takeWhile (fun a => a != ';')).length := by
      unfold findFirstOf
      rw [List.drop_zero, strFindAux_of_mem hmem]
      simp
    set k := (title.takeWhile (fun a => a != ';')).length with hk
    obtain ⟨rest, hrest⟩ := dropWhile_ne_eq_cons hmem
    have hsplit : title.takeWhile (fun a => a != ';') ++
        title.dropWhile (fun a => a != ';') = title :=
      List.takeWhile_append_dropWhile (fun a => a != ';') title
    have hlen_decomp : title.length = k + 1 + rest.length := by
      conv_lhs => rw [← hsplit, hrest]
      simp only [List.length_append, List.length_cons, ← hk]
      omega
    have hk1le : k + 1 ≤ title.length := by omega
    have hk1lt : k + 1 < 2 ^ 64 := by omega
    have hstart : (findFirstOf title ';' 0 + 1) % 2 ^ 64 = k + 1 := by
      rw [hfind1]
      exact Nat.mod_eq_of_lt hk1lt
    have hdropk : title.drop k = (';') :: rest := by
      rw [hk, drop_length_takeWhile, hrest]
    have hdropk1 : title.drop (k + 1) = rest := by
      have h2 : (title.drop k).drop 1 = title.drop (k + 1) :=
        List.drop_drop 1 k title
      rw [← h2, hdropk]
      rfl
    rw [hstart, hfind1]
    by_cases hmem2 : (';') ∈ rest
    · have hfind2 : findFirstOf title ';' (k + 1) =
          (k + 1) + (rest.takeWhile (fun a => a != ';')).length := by
        unfold findFirstOf
        rw [hdropk1, strFindAux_of_mem hmem2]
      set j := (rest.takeWhile (fun a => a != ';')).length with hj
      have hjle : j ≤ rest.length := by
        rw [hj]
        exact length_takeWhile_le' _ rest
      have hjlt : j < 2 ^ 64 := by omega
      have harith : ((k + 1) + j + 2 ^ 64 - (k + 1)) % 2 ^ 64 = j := by
        have h1 : (k + 1) + j + 2 ^ 64 - (k + 1) = j + 2 ^ 64 := by omega
        rw [h1]
        exact size_mod_self_add j hjlt
      rw [hfind2, harith]
      show (title.drop (k + 1)).take j = specXAxisField title
      rw [hdropk1, hj, take_length_takeWhile]
      unfold specXAxisField
      rw [hrest]
      rfl
    · have hforall : ∀ x ∈ rest, x ≠ ';' := fun x hx hh => hmem2 (hh ▸ hx)
      have hfind2 : findFirstOf title ';' (k + 1) = npos := by
        unfold findFirstOf
        rw [hdropk1, strFindAux_eq_none hforall]
      have hnle : k + 1 ≤ npos := le_of_lt (lt_of_le_of_lt hk1le hlen)
      have harith : (npos + 2 ^ 64 - (k + 1)) % 2 ^ 64 = npos - (k + 1) := by
        have h1 : npos + 2 ^ 64 - (k + 1) = (npos - (k + 1)) + 2 ^ 64 := by
          omega
        rw [h1]
        exact size_mod_self_add _ (by have := npos_lt_size; omega)
      rw [hfind2, harith]
      show (title.drop (k + 1)).take (npos - (k + 1)) = specXAxisField title
      rw [hdropk1, List.take_of_length_le (by omega)]
      unfold specXAxisField
      rw [hrest]
      show rest = ((((';') :: rest).drop 1).takeWhile (fun a => a != ';'))
      rw [List.drop_succ_cons, List.drop_zero, takeWhile_ne_eq_self hforall]
  · rw [hunfold, if_neg hmem]
    have hforall : ∀ x ∈ title, x ≠ ';' := fun x hx hh => hmem (hh ▸ hx)
    have hfind1 : findFirstOf title ';' 0 = npos := by
      unfold findFirstOf
      rw [List.drop_zero, strFindAux_eq_none hforall]
    have hs0 : (npos + 1) % 2 ^ 64 = 0 := by norm_num [npos]
    have harith : (npos + 2 ^ 64 - (npos + 1)) % 2 ^ 64 = npos := by
      have h1 : npos + 2 ^ 64 - (npos + 1) = npos := by
        have := npos_lt_size
        omega
      rw [h1]
      exact Nat.mod_eq_of_lt npos_lt_size
    rw [hfind1, hs0, hfind1, harith]
    show (title.drop 0).take npos = title
    rw [List.drop_zero]
    exact List.take_of_length_le (le_of_lt hlen)

/-- Witness for the amended C9 theorem at the two-field title `t;x` (third
field absent): the extracted x-axis title is the field `x`. -/
theorem extractXAxisTitle_eq_specField_witness :
    (("t;x").data.length < npos) ∧
    extractXAxisTitle (("t;x").data) =
      (if (';') ∈ ("t;x").data then specXAxisField (("t;x").data)
       else ("t;x").data) ∧
    specXAxisField (("t;x").data) = ("x").data := by
  have h : ("t;x").data.length < npos := by norm_num [npos]
  exact ⟨h, extractXAxisTitle_eq_specField (("t;x").data) h, by decide⟩

/-- Counterexample to claim C9 as stated: for the semicolon-free title
`abc`, the code extracts the whole title `abc` as the x-axis title of the
residuals panel, whereas the claim requires the empty second field. -/
theorem extractXAxisTitle_no_semicolon_cex :
    extractXAxisTitle (("abc").data) = ("abc").data ∧
    specXAxisField (("abc").data) = ([] : List Char) ∧
    extractXAxisTitle (("abc").data) ≠ specXAxisField (("abc").data) := by
  refine ⟨by decide, by decide, by decide⟩

end HepPlot

